import Mathlib

/-!
Verification of the event-persistence core of the repository
(openadapt/crud.py): the batched writer, the stop-sequence trimmer,
the screenshot prev-linking and diff chain, and the query accessors.

Conventions of the shallow embedding:
* Python dictionaries of event data are association lists with Nat values
  (the values themselves are never inspected by the code under study).
* Python None is Option.none; a raised exception is modelled by an
  Option/Except result (none, or an explicit error value).
* The module-level configuration values (BATCH_SIZE, STOP_SEQUENCES,
  SAVE_SCREENSHOT_DIFF) and the database session are passed as explicit
  parameters.
-/

namespace OpenAdapt

/-- Row of the action_event table, as read by crud.py: the event kind
(field name, e.g. press or release) and the two nullable canonical key
fields. Declared in openadapt/models.py. -/
structure ActionEvent where
  recording_timestamp : Nat
  timestamp : Nat
  name : String
  canonical_key_char : Option String
  canonical_key_name : Option String
deriving Repr, DecidableEq

/-- Row of the screenshot table. The png fields are abstracted to Nat
(the byte strings are never inspected, only tested for presence).
Modelled from the spec: the derived, non-persisted prev relationship of
models.py is an index into the fetched list (none when unset, i.e.
Python None; some i when pointing at the screenshot at position i). -/
structure Screenshot where
  recording_timestamp : Nat
  timestamp : Nat
  png_data : Nat
  png_diff_data : Option Nat
  png_diff_mask_data : Option Nat
  prev : Option Nat
deriving Repr, DecidableEq

/-- Row of the window_event table (metadata fields are irrelevant to the
claims and abstracted to the title string). -/
structure WindowEvent where
  recording_timestamp : Nat
  timestamp : Nat
  title : String
deriving Repr, DecidableEq

/-- A recording, identified by its creation timestamp. -/
structure Recording where
  timestamp : Nat
deriving Repr, DecidableEq

/-! Section: Stop-sequence trimmer (crud.filter_stop_sequences) -/

/-- Python list indexing with negative-index support, as used by
STOP_SEQUENCES[i][stop_sequence_indices[i]] in crud.py: a non-negative
index reads from the front, an index in [-len, -1] reads from the back,
anything else raises IndexError (modelled as none). -/
def pyGet (l : List String) (i : Int) : Option String :=
  if 0 ≤ i then l.get? i.toNat
  else if -(l.length : Int) ≤ i then l.get? (l.length - (-i).toNat)
  else none

/-- Python membership test of an optional string in a list of strings
(None in a list of strings is False). -/
def optMem (o : Option String) (l : List String) : Bool :=
  match o with
  | some s => l.contains s
  | none => false

/-- The inner loop of crud.filter_stop_sequences, lines 289-310: walk the
action events backwards (the argument is the reversed event list),
carrying the cursor into the candidate sequence (idx) and the running
count of consumed events (num). Press events matching the cursor token
advance the cursor; release events matching any token of the sequence
are consumed without moving the cursor; anything else stops the scan.
The token lookup STOP_SEQUENCES[i][idx] is evaluated before the event is
classified, so an out-of-range cursor raises IndexError (none) even on
events that would otherwise end the scan. -/
def scanSeq (seq : List String) : List ActionEvent → Int → Nat → Option (Int × Nat)
  | [], idx, num => some (idx, num)
  | e :: rest, idx, num =>
    match pyGet seq idx with
    | none => none
    | some tok =>
      if (e.canonical_key_char = some tok ∨ e.canonical_key_name = some tok)
          ∧ e.name = "press" then
        scanSeq seq rest (idx - 1) (num + 1)
      else if e.name = "release"
          ∧ (optMem e.canonical_key_char seq ∨ optMem e.canonical_key_name seq) then
        scanSeq seq rest idx (num + 1)
      else
        some (idx, num)

/-- The outer loop of crud.filter_stop_sequences, lines 287-316: try each
configured sequence in order; a sequence whose final cursor value is
exactly -1 wins. The consumed-event count num is carried across
sequences without being reset, exactly as in the source. Returns
(matched, num), or none when the scan raised IndexError. -/
def outerScan (events : List ActionEvent) : List (List String) → Nat → Option (Bool × Nat)
  | [], num => some (false, num)
  | seq :: rest, num =>
    match scanSeq seq events.reverse ((seq.length : Int) - 1) num with
    | none => none
    | some (idx, numAfter) =>
      if idx = -1 then some (true, numAfter)
      else outerScan events rest numAfter

/-- The configured-sequence path of crud.filter_stop_sequences: when a
sequence matched, pop num events off the end of the list (lines
318-321); popping more events than the list holds raises IndexError
(none). When nothing matched the list is returned unchanged. -/
def runStopScan (STOP_SEQUENCES : List (List String)) (events : List ActionEvent) :
    Option (List ActionEvent) :=
  match outerScan events STOP_SEQUENCES 0 with
  | none => none
  | some (false, _) => some events
  | some (true, num) =>
    if num ≤ events.length then some (events.take (events.length - num)) else none

/-- The Ctrl+C shortcut test of crud.filter_stop_sequences, lines
266-270: at least two events, the last event has canonical_key_char
exactly "c" (a case-sensitive comparison in the source) and the
second-to-last has canonical_key_name "ctrl". -/
def ctrlCHit (events : List ActionEvent) : Bool :=
  match events.reverse with
  | lastE :: secondE :: _ =>
    (lastE.canonical_key_char == some "c") && (secondE.canonical_key_name == some "ctrl")
  | _ => false

/-- crud.filter_stop_sequences, lines 255-321. The source mutates the
list in place and returns None; the embedding returns the trimmed list,
or none when the source would raise IndexError. -/
def filter_stop_sequences (STOP_SEQUENCES : List (List String))
    (action_events : List ActionEvent) : Option (List ActionEvent) :=
  if ctrlCHit action_events then
    some (action_events.take (action_events.length - 2))
  else
    runStopScan STOP_SEQUENCES action_events

/-- A press event producing the literal character c, with no canonical
key name (helper for concrete inputs). -/
def pressEv (c : String) : ActionEvent :=
  ⟨0, 0, "press", some c, none⟩

/-- A press of the ctrl modifier: no literal character, canonical key
name ctrl (helper for concrete inputs). -/
def ctrlEv : ActionEvent :=
  ⟨0, 0, "press", none, some "ctrl"⟩

/-! Section: Batched writer (crud._insert) -/

/-- Event data offered to the writer: a Python dict of field name to
value, modelled as an association list (values abstracted to Nat). -/
abbrev EventData := List (String × Nat)

/-- Python dict lookup in the event data. -/
def lookupKey (ed : EventData) (k : String) : Option Nat :=
  match ed.find? (fun kv => kv.1 == k) with
  | some kv => some kv.2
  | none => none

/-- A row as built by crud._insert lines 49-54: one entry per declared
column, holding the supplied value or None. -/
abbrev Row := List (String × Option Nat)

/-- The db_obj built by crud._insert: every declared column, populated
from the event data where present. -/
def mkRow (cols : List String) (ed : EventData) : Row :=
  cols.map (fun c => (c, lookupKey ed c))

/-- The event-data entries left over after the extraction loop of
crud._insert lines 50-54: exactly the supplied fields that are not
declared columns. The assertion on line 57 fires iff this is
non-empty. -/
def leftoverFields (cols : List String) (ed : EventData) : EventData :=
  ed.filter (fun kv => !(cols.contains kv.1))

/-- The two failure modes of crud._insert: the schema assertion on line
57 (AssertionError) and a failed execute/commit on lines 64-65. -/
inductive InsertError
  | schemaViolation
  | commitFailure
deriving Repr, DecidableEq

/-- Committed storage: the list of executed multi-row inserts, each one
batch of rows, in commit order. -/
structure DbState where
  batches : List (List Row)
deriving Repr, DecidableEq

/-- Result of one call to crud._insert: the storage state, the buffer
(None when no buffer was supplied), and the exception raised, if any.
On an exception the state fields show what the caller observes
afterwards. -/
structure InsertOutcome where
  dbSt : DbState
  buffer : Option (List Row)
  error : Option InsertError
deriving Repr, DecidableEq

/-- crud._insert, lines 32-69. BATCH_SIZE (line 22) and the commit
outcome of the storage backend (commitOk) are explicit parameters.
Control flow of the source: build db_obj, assert no event data is left
over (before any buffering), append to the buffer when one is supplied,
then commit either when unbuffered or when the buffer has reached
BATCH_SIZE, clearing the buffer only after the commit succeeded. -/
def _insert (BATCH_SIZE : Nat) (commitOk : Bool) (cols : List String)
    (event_data : EventData) (dbSt : DbState) (buffer : Option (List Row)) :
    InsertOutcome :=
  if (leftoverFields cols event_data).isEmpty = false then
    ⟨dbSt, buffer, some InsertError.schemaViolation⟩
  else
    match buffer with
    | none =>
      if commitOk then
        ⟨⟨dbSt.batches ++ [[mkRow cols event_data]]⟩, none, none⟩
      else
        ⟨dbSt, none, some InsertError.commitFailure⟩
    | some b =>
      let b1 := b ++ [mkRow cols event_data]
      if BATCH_SIZE ≤ b1.length then
        if commitOk then
          ⟨⟨dbSt.batches ++ [if b1.isEmpty then [mkRow cols event_data] else b1]⟩,
            some (if b1.isEmpty then b1 else []), none⟩
        else
          ⟨dbSt, some b1, some InsertError.commitFailure⟩
      else
        ⟨dbSt, some b1, none⟩

/-- Driver for the buffered write path: a sequence of calls to
crud._insert against the same buffer and storage, with a successful
backend, halting at the first exception. This is the scenario of the
batching property (one insert call per arriving record). -/
def runInserts (BATCH_SIZE : Nat) (cols : List String) :
    List EventData → DbState → List Row → InsertOutcome
  | [], dbSt, buf => ⟨dbSt, some buf, none⟩
  | ed :: rest, dbSt, buf =>
    match _insert BATCH_SIZE true cols ed dbSt (some buf) with
    | ⟨db1, some buf1, none⟩ => runInserts BATCH_SIZE cols rest db1 buf1
    | out => out

/-! Section: Screenshot diff chain (crud.save_screenshot_diff) and prev
linking (crud.get_screenshots) -/

/-- The body of the loop of crud.save_screenshot_diff lines 336-346 for
one screenshot: skipped entirely when prev is falsy (Python None; a
prev pointing at a screenshot object, including the screenshot itself,
is truthy); otherwise each of the two diff fields is computed exactly
when absent. Returns the updated screenshot and the number of diff
computations performed (the instrumentation counted by the spec).
The diff and mask computations of models.py are not under src/ and are
modelled from the spec as abstract functions f and m of the pair
(current image bytes, previous image bytes). -/
def processOne (f m : Nat → Nat → Nat) (l : List Screenshot) (s : Screenshot) :
    Screenshot × Nat :=
  match s.prev with
  | none => (s, 0)
  | some i =>
    let prevPng := (l.getD i s).png_data
    match s.png_diff_data, s.png_diff_mask_data with
    | some _, some _ => (s, 0)
    | some _, none =>
      ({ s with png_diff_mask_data := some (m s.png_data prevPng) }, 1)
    | none, some _ =>
      ({ s with png_diff_data := some (f s.png_data prevPng) }, 1)
    | none, none =>
      ({ s with png_diff_data := some (f s.png_data prevPng),
                png_diff_mask_data := some (m s.png_data prevPng) }, 2)

/-- Result of one pass of crud.save_screenshot_diff: the updated list,
the number of diff-field computations performed, and the data_updated
flag of line 333 which controls the single bulk write of lines
348-351. -/
structure DiffPassResult where
  screenshots : List Screenshot
  computes : Nat
  data_updated : Bool
deriving Repr, DecidableEq

/-- crud.save_screenshot_diff, lines 324-353. The pass mutates only the
two diff fields, so computing each diff from the original list is
equivalent to the in-place mutation of the source (png_data and prev
are never written by the pass). A bulk write to storage happens iff
data_updated is true. -/
def save_screenshot_diff (f m : Nat → Nat → Nat) (screenshots : List Screenshot) :
    DiffPassResult where
  screenshots := screenshots.map (fun s => (processOne f m screenshots s).1)
  computes := (screenshots.map (fun s => (processOne f m screenshots s).2)).sum
  data_updated := screenshots.any (fun s => (processOne f m screenshots s).2 != 0)

/-- The zip loop of crud.get_screenshots line 367-368: each screenshot
from position 1 on gets prev pointing at the preceding position. The
argument i is the index of the predecessor of the head. -/
def linkTail : Nat → List Screenshot → List Screenshot
  | _, [] => []
  | i, s :: rest => { s with prev := some i } :: linkTail (i + 1) rest

/-- Lines 367-370 of crud.get_screenshots: the zip pass composed with
the final self-assignment screenshots[0].prev = screenshots[0] (here:
index 0 points at itself). -/
def linkPrevs : List Screenshot → List Screenshot
  | [] => []
  | s0 :: rest => { s0 with prev := some 0 } :: linkTail 0 rest

/-! Section: Query layer (crud._get and the accessors) -/

/-- Stable insertion of an element into a list sorted by a Nat key
(helper for the ORDER BY of crud._get). -/
def insertByKey {α : Type} (key : α → Nat) (x : α) : List α → List α
  | [] => [x]
  | y :: ys => if key x < key y then x :: y :: ys else y :: insertByKey key x ys

/-- Stable sort by a Nat key (the ORDER BY timestamp of crud._get). -/
def sortByKey {α : Type} (key : α → Nat) (l : List α) : List α :=
  List.foldl (fun acc x => insertByKey key x acc) [] l

/-- crud._get, lines 220-236: the rows of one table filtered to one
recording, ascending by timestamp. -/
def _get {α : Type} (recTs ts : α → Nat) (tbl : List α) (recording_timestamp : Nat) :
    List α :=
  sortByKey ts (tbl.filter (fun r => recTs r == recording_timestamp))

/-- How a query accessor fails on a missing recording: the explicit
assert of crud.get_action_events line 248, or the attribute access
recording.timestamp on None in the other accessors. -/
inductive QueryError
  | assertionError
  | attributeError
  | indexError
deriving Repr, DecidableEq

/-- crud.get_action_events, lines 239-252: assert the recording exists,
fetch its action events ordered by timestamp, and run the stop-sequence
trimmer over them (whose IndexError, when raised, propagates). -/
def get_action_events (STOP_SEQUENCES : List (List String))
    (dbA : List ActionEvent) (recording : Option Recording) :
    Except QueryError (List ActionEvent) :=
  match recording with
  | none => Except.error QueryError.assertionError
  | some r =>
    match filter_stop_sequences STOP_SEQUENCES
        (_get (fun e => e.recording_timestamp) (fun e => e.timestamp) dbA r.timestamp) with
    | none => Except.error QueryError.indexError
    | some evs => Except.ok evs

/-- crud.get_window_events, lines 377-386: no assert; a missing
recording fails at the attribute access recording.timestamp. -/
def get_window_events (dbW : List WindowEvent) (recording : Option Recording) :
    Except QueryError (List WindowEvent) :=
  match recording with
  | none => Except.error QueryError.attributeError
  | some r =>
    Except.ok (_get (fun e => e.recording_timestamp) (fun e => e.timestamp) dbW r.timestamp)

/-- crud.get_screenshots, lines 356-374: fetch, link prev pointers, and
when SAVE_SCREENSHOT_DIFF is enabled run the diff-chain pass. A missing
recording fails at the attribute access recording.timestamp. -/
def get_screenshots (SAVE_SCREENSHOT_DIFF : Bool) (f m : Nat → Nat → Nat)
    (dbS : List Screenshot) (recording : Option Recording) :
    Except QueryError (List Screenshot) :=
  match recording with
  | none => Except.error QueryError.attributeError
  | some r =>
    let ss := linkPrevs
      (_get (fun s => s.recording_timestamp) (fun s => s.timestamp) dbS r.timestamp)
    Except.ok (if SAVE_SCREENSHOT_DIFF then (save_screenshot_diff f m ss).screenshots else ss)

/-! Section: Concrete inputs used by counterexamples and witnesses -/

/-- Columns of a minimal entity kind holding just the two injected
timestamps. -/
def colsTs : List String := ["timestamp", "recording_timestamp"]

/-- Two valid records for colsTs. -/
def edsTs : List EventData :=
  [[("timestamp", 1), ("recording_timestamp", 10)],
   [("timestamp", 2), ("recording_timestamp", 10)]]

/-- A stored screenshot of recording 0 with unset prev and no cached
diffs. -/
def scStored : Screenshot := ⟨0, 1, 9, none, none, none⟩

/-- A screenshot with unset (None) prev, as stored before linking. -/
def scNoPrev : Screenshot := ⟨0, 1, 9, none, none, none⟩

/-- A screenshot whose prev points at position 0 and whose diff fields
are absent. -/
def scWithPrev : Screenshot := ⟨0, 2, 7, none, none, some 0⟩

/-- Stored screenshots for the prev-chain witness. -/
def dbS10 : List Screenshot :=
  [⟨0, 1, 5, none, none, none⟩, ⟨0, 2, 6, none, none, none⟩]

/-- The list crud.get_screenshots returns for dbS10 with diffing
disabled: both screenshots linked, the first to itself. -/
def out10 : List Screenshot :=
  [⟨0, 1, 5, none, none, some 0⟩, ⟨0, 2, 6, none, none, some 0⟩]

/-! Section: Theorems -/

/-- C1 (code bug): with STOP_SEQUENCES = [[x, a], [a]] and events
[press b, press a], the failed attempt on the first sequence consumes
press a and num_to_remove is never reset, so when the second sequence
fully matches (consuming only press a, one event) the pop loop removes
num_to_remove = 2 events and the result is the empty list. The second
conjunct shows that with only the winning sequence configured the very
same event list loses exactly one event, press b surviving: the extra
removal in the first run is exactly the count accumulated by the failed
attempt on the earlier-configured sequence, contradicting the claim
that no events consumed during failed attempts are counted. -/
theorem C1_accumulated_removal :
    filter_stop_sequences [["x", "a"], ["a"]] [pressEv "b", pressEv "a"] = some []
    ∧ filter_stop_sequences [["a"]] [pressEv "b", pressEv "a"] = some [pressEv "b"] :=
  ⟨rfl, rfl⟩

/-- C4 (code bug): with STOP_SEQUENCES = [[a]] and events
[press a, press a, press a], the cursor reaches -1 after the first
match, Python negative indexing then reads the last token at index -1
and matches again, and the subsequent lookup STOP_SEQUENCES[0][-2] is
out of range for the one-token sequence: the source raises IndexError
(embedded as none) instead of terminating with a prefix of the list. -/
theorem C4_scan_index_error :
    filter_stop_sequences [["a"]] [pressEv "a", pressEv "a", pressEv "a"] = none :=
  rfl

/-- C3 counterexample: a two-event list ending in press ctrl then a
press whose literal character is the upper-case "C". The claim says the
case-insensitive canonical form triggers the Ctrl+C shortcut and both
events are removed; the source compares canonical_key_char with the
lower-case "c" only, the shortcut does not fire, and (with no
configured sequences) the list is returned unchanged. -/
theorem C3_upper_case_not_trimmed :
    filter_stop_sequences [] [ctrlEv, pressEv "C"] = some [ctrlEv, pressEv "C"]
    ∧ (pressEv "C").canonical_key_char = some "C"
    ∧ ctrlEv.canonical_key_name = some "ctrl" :=
  ⟨rfl, rfl, rfl⟩

/-- C3 (amended): for every configuration of stop sequences and every
event list whose last event has canonical_key_char exactly "c"
(lower case; the comparison in the source is case sensitive) and whose
second-to-last event has canonical_key_name "ctrl", the trimmer removes
exactly those two events and the configured-sequence path is never
attempted. -/
theorem C3_ctrl_c_exact (STOP_SEQUENCES : List (List String))
    (rest : List ActionEvent) (a b : ActionEvent)
    (hc : b.canonical_key_char = some "c")
    (hn : a.canonical_key_name = some "ctrl") :
    filter_stop_sequences STOP_SEQUENCES (rest ++ [a, b]) = some rest := by
  have hrev : (rest ++ [a, b]).reverse = b :: a :: rest.reverse := by simp
  have hhit : ctrlCHit (rest ++ [a, b]) = true := by
    simp [ctrlCHit, hrev, hc, hn]
  have hlen : (rest ++ [a, b]).length = rest.length + 2 := by simp
  rw [filter_stop_sequences, if_pos hhit, hlen, Nat.add_sub_cancel]
  rw [show rest.length = rest.length + 0 from rfl]
  rw [List.take_append]
  simp

/-- Witness for C3_ctrl_c_exact at a concrete input: a press of q
followed by press ctrl and press c loses exactly the trailing two
events, even though a configured sequence is present. -/
theorem C3_ctrl_c_exact_witness :
    filter_stop_sequences [["z"]] ([pressEv "q"] ++ [ctrlEv, pressEv "c"]) =
      some [pressEv "q"] :=
  C3_ctrl_c_exact [["z"]] [pressEv "q"] ctrlEv (pressEv "c") rfl rfl

/-- C9: each of the three event accessors, invoked for a recording that
does not exist (the None returned by a failed recording lookup), fails
fast instead of returning an empty or default result:
get_action_events through its assert, get_window_events and
get_screenshots through the attribute access on None. -/
theorem C9_missing_recording_fails (STOP_SEQUENCES : List (List String))
    (dbA : List ActionEvent) (dbW : List WindowEvent) (flag : Bool)
    (f m : Nat → Nat → Nat) (dbS : List Screenshot) :
    get_action_events STOP_SEQUENCES dbA none = Except.error QueryError.assertionError
    ∧ get_window_events dbW none = Except.error QueryError.attributeError
    ∧ get_screenshots flag f m dbS none = Except.error QueryError.attributeError :=
  ⟨rfl, rfl, rfl⟩

/-- The validity of a record offered to the writer: every supplied field
is a declared column iff the extraction loop leaves nothing over. -/
theorem leftoverFields_eq_nil (cols : List String) (ed : EventData) :
    leftoverFields cols ed = [] ↔ ∀ kv ∈ ed, cols.contains kv.1 = true := by
  unfold leftoverFields
  rw [List.filter_eq_nil_iff]
  constructor
  · intro h kv hm
    have := h kv hm
    simpa using this
  · intro h kv hm
    simpa using h kv hm

/-- Step lemma: a valid buffered insert below the batch threshold only
appends to the buffer. -/
theorem insert_step_no_commit (T : Nat) (cols : List String) (ed : EventData)
    (bat : List (List Row)) (buf : List Row)
    (hv : leftoverFields cols ed = []) (hlt : buf.length + 1 < T) :
    _insert T true cols ed ⟨bat⟩ (some buf) =
      ⟨⟨bat⟩, some (buf ++ [mkRow cols ed]), none⟩ := by
  have hnot : ¬ T ≤ buf.length + 1 := by omega
  simp [_insert, hv, hnot]

/-- Step lemma: a valid buffered insert that reaches the batch threshold
commits the whole buffer as one batch and clears it. -/
theorem insert_step_commit (T : Nat) (cols : List String) (ed : EventData)
    (bat : List (List Row)) (buf : List Row)
    (hv : leftoverFields cols ed = []) (hge : T ≤ buf.length + 1) :
    _insert T true cols ed ⟨bat⟩ (some buf) =
      ⟨⟨bat ++ [buf ++ [mkRow cols ed]]⟩, some [], none⟩ := by
  have hne : (buf ++ [mkRow cols ed]).isEmpty = false := by
    cases buf <;> rfl
  simp [_insert, hv, hge, hne]

/-- C7 counterexample: a record that omits both injected timestamps but
whose only supplied field is a declared column. The claim says the call
must fail with a SchemaViolation; the source only asserts that no
supplied field is undeclared, so no error is raised (the row is
committed with null timestamps). -/
theorem C7_omitted_timestamps_accepted :
    lookupKey [("name", 5)] "timestamp" = none
    ∧ lookupKey [("name", 5)] "recording_timestamp" = none
    ∧ (_insert 1 true ["timestamp", "recording_timestamp", "name"]
        [("name", 5)] ⟨[]⟩ (some [])).error = none := by
  refine ⟨rfl, rfl, ?_⟩
  rfl

/-- C7 (amended): a call to the writer raises the schema assertion iff
some supplied field is not a declared column of the target kind; when
it does, it raises before any buffering and before any commit (storage
and buffer are untouched). Omitted fields, the injected timestamps
included, are not checked. -/
theorem C7_schema_violation_iff (T : Nat) (commitOk : Bool) (cols : List String)
    (ed : EventData) (dbSt : DbState) (buffer : Option (List Row)) :
    ((_insert T commitOk cols ed dbSt buffer).error = some InsertError.schemaViolation
      ↔ ¬ ∀ kv ∈ ed, cols.contains kv.1 = true)
    ∧ (¬ (∀ kv ∈ ed, cols.contains kv.1 = true) →
        _insert T commitOk cols ed dbSt buffer = ⟨dbSt, buffer, some InsertError.schemaViolation⟩) := by
  cases hL : leftoverFields cols ed with
  | nil =>
    have hall : ∀ kv ∈ ed, cols.contains kv.1 = true := (leftoverFields_eq_nil cols ed).mp hL
    have herr : (_insert T commitOk cols ed dbSt buffer).error ≠ some InsertError.schemaViolation := by
      simp only [_insert, hL, List.isEmpty_nil]
      cases buffer with
      | none => cases commitOk <;> simp
      | some b =>
        by_cases hT : T ≤ b.length + 1 <;> cases commitOk <;> simp [hT]
    constructor
    · constructor
      · intro h; exact absurd h herr
      · intro h; exact absurd hall h
    · intro h; exact absurd hall h
  | cons kv rest =>
    have hne : leftoverFields cols ed ≠ [] := by rw [hL]; simp
    have hnot : ¬ ∀ kv ∈ ed, cols.contains kv.1 = true := by
      intro hall
      exact hne ((leftoverFields_eq_nil cols ed).mpr hall)
    have heq : _insert T commitOk cols ed dbSt buffer = ⟨dbSt, buffer, some InsertError.schemaViolation⟩ := by
      have hE : (leftoverFields cols ed).isEmpty = false := by rw [hL]; rfl
      simp [_insert, hE]
    refine ⟨?_, fun _ => heq⟩
    rw [heq]
    simpa using hnot

/-- Witness for C7_schema_violation_iff: a record with the undeclared
field oops is rejected before buffering, with buffer and storage
untouched. -/
theorem C7_schema_violation_witness :
    _insert 1 true colsTs [("oops", 5)] ⟨[]⟩ (some []) =
      ⟨⟨[]⟩, some [], some InsertError.schemaViolation⟩ :=
  (C7_schema_violation_iff 1 true colsTs [("oops", 5)] ⟨[]⟩ (some [])).2 (by decide)

/-- C8: when a valid buffered insert reaches the batch threshold and the
commit fails, the commit failure is surfaced to the caller and the
buffer retains every buffered row, the newly appended one included;
storage is unchanged, so the caller can retry with no rows lost. -/
theorem C8_commit_failure_keeps_buffer (T : Nat) (cols : List String) (ed : EventData)
    (bat : List (List Row)) (buf : List Row)
    (hv : leftoverFields cols ed = []) (hge : T ≤ buf.length + 1) :
    _insert T false cols ed ⟨bat⟩ (some buf) =
      ⟨⟨bat⟩, some (buf ++ [mkRow cols ed]), some InsertError.commitFailure⟩ := by
  simp [_insert, hv, hge]

/-- Witness for C8_commit_failure_keeps_buffer: one valid record, batch
threshold 1, failing backend: the error surfaces, storage stays empty
and the buffer still holds the row. -/
theorem C8_commit_failure_witness :
    _insert 1 false colsTs [("timestamp", 1), ("recording_timestamp", 10)] ⟨[]⟩ (some []) =
      ⟨⟨[]⟩, some ([] ++ [mkRow colsTs [("timestamp", 1), ("recording_timestamp", 10)]]),
        some InsertError.commitFailure⟩ :=
  C8_commit_failure_keeps_buffer 1 colsTs [("timestamp", 1), ("recording_timestamp", 10)]
    [] [] (by decide) (by decide)

/-- Accumulation lemma: a run of valid buffered inserts that never
reaches the batch threshold appends every row to the buffer and commits
nothing. -/
theorem runInserts_below (T : Nat) (cols : List String) (eds : List EventData) :
    ∀ (bat : List (List Row)) (buf : List Row),
      (∀ ed ∈ eds, leftoverFields cols ed = []) →
      buf.length + eds.length < T →
      runInserts T cols eds ⟨bat⟩ buf =
        ⟨⟨bat⟩, some (buf ++ eds.map (mkRow cols)), none⟩ := by
  induction eds with
  | nil =>
    intro bat buf _ _
    simp [runInserts]
  | cons ed rest ih =>
    intro bat buf hv hlt
    have hstep : _insert T true cols ed ⟨bat⟩ (some buf) =
        ⟨⟨bat⟩, some (buf ++ [mkRow cols ed]), none⟩ := by
      apply insert_step_no_commit T cols ed bat buf (hv ed (by simp))
      simp only [List.length_cons] at hlt
      omega
    rw [runInserts, hstep]
    have hrec := ih bat (buf ++ [mkRow cols ed])
      (fun e he => hv e (by simp [he]))
      (by simp only [List.length_append, List.length_cons, List.length_nil] at hlt ⊢; omega)
    simpa [List.append_assoc] using hrec

/-- A run with no exception can be split at any point. -/
theorem runInserts_append (T : Nat) (cols : List String) (xs ys : List EventData) :
    ∀ (db : DbState) (buf : List Row) (db1 : DbState) (buf1 : List Row),
      runInserts T cols xs db buf = ⟨db1, some buf1, none⟩ →
      runInserts T cols (xs ++ ys) db buf = runInserts T cols ys db1 buf1 := by
  induction xs with
  | nil =>
    intro db buf db1 buf1 h
    simp only [runInserts, InsertOutcome.mk.injEq, Option.some.injEq] at h
    obtain ⟨h1, h2, -⟩ := h
    rw [List.nil_append, h1, h2]
  | cons x xs ih =>
    intro db buf db1 buf1 h
    rw [List.cons_append]
    rw [runInserts] at h ⊢
    rcases hins : _insert T true cols x db (some buf) with ⟨db2, obuf, oerr⟩
    rw [hins] at h
    cases obuf with
    | none =>
      cases oerr <;> simp at h
    | some buf2 =>
      cases oerr with
      | none =>
        exact ih db2 buf2 db1 buf1 h
      | some e =>
        simp at h

/-- C2: for every batch threshold T at least 1 and every run of T valid
records inserted one at a time into an initially empty buffer, after
exactly T calls the buffer is empty and storage holds exactly one
committed multi-row insert containing the T rows in arrival order;
after any prefix of fewer than T calls, nothing has been committed and
the buffer holds exactly the rows inserted so far. -/
theorem C2_batch_threshold (T : Nat) (hT : 1 ≤ T) (cols : List String)
    (eds : List EventData) (hlen : eds.length = T)
    (hv : ∀ ed ∈ eds, leftoverFields cols ed = []) :
    runInserts T cols eds ⟨[]⟩ [] = ⟨⟨[eds.map (mkRow cols)]⟩, some [], none⟩
    ∧ ∀ k, k < T →
        runInserts T cols (eds.take k) ⟨[]⟩ [] =
          ⟨⟨[]⟩, some ((eds.take k).map (mkRow cols)), none⟩ := by
  constructor
  · have hne : eds ≠ [] := by
      intro h
      rw [h] at hlen
      simp at hlen
      omega
    have hfld : eds.dropLast ++ [eds.getLast hne] = eds :=
      List.dropLast_append_getLast hne
    have hfl : eds.dropLast.length = T - 1 := by
      rw [List.length_dropLast, hlen]
    have hfront : runInserts T cols eds.dropLast ⟨[]⟩ [] =
        ⟨⟨[]⟩, some (eds.dropLast.map (mkRow cols)), none⟩ := by
      apply runInserts_below T cols eds.dropLast []
      · intro e he
        exact hv e (List.dropLast_subset _ he)
      · simp [hfl]
        omega
    have hlast : eds.getLast hne ∈ eds := List.getLast_mem hne
    have hstep : _insert T true cols (eds.getLast hne) ⟨[]⟩
        (some (eds.dropLast.map (mkRow cols))) =
        ⟨⟨[] ++ [eds.dropLast.map (mkRow cols) ++ [mkRow cols (eds.getLast hne)]]⟩,
          some [], none⟩ := by
      apply insert_step_commit T cols _ [] _ (hv _ hlast)
      simp [hfl]
      omega
    calc runInserts T cols eds ⟨[]⟩ []
        = runInserts T cols (eds.dropLast ++ [eds.getLast hne]) ⟨[]⟩ [] := by rw [hfld]
      _ = runInserts T cols [eds.getLast hne] ⟨[]⟩ (eds.dropLast.map (mkRow cols)) :=
          runInserts_append T cols eds.dropLast [eds.getLast hne] ⟨[]⟩ [] ⟨[]⟩
            (eds.dropLast.map (mkRow cols)) hfront
      _ = ⟨⟨[eds.map (mkRow cols)]⟩, some [], none⟩ := by
          rw [runInserts, hstep]
          rw [show eds.map (mkRow cols) =
            eds.dropLast.map (mkRow cols) ++ [mkRow cols (eds.getLast hne)] from by
              conv_lhs => rw [← hfld]
              simp]
          rfl
  · intro k hk
    apply runInserts_below T cols (eds.take k) []
    · intro e he
      exact hv e (List.take_subset _ _ he)
    · simp [hlen]
      omega

/-- Witness for C2_batch_threshold at threshold 2 with two concrete
valid records: after both inserts one two-row batch is committed and
the buffer is empty; after the first insert alone nothing is committed
and the buffer holds the single row. -/
theorem C2_batch_threshold_witness :
    runInserts 2 colsTs edsTs ⟨[]⟩ [] = ⟨⟨[edsTs.map (mkRow colsTs)]⟩, some [], none⟩
    ∧ runInserts 2 colsTs (edsTs.take 1) ⟨[]⟩ [] =
        ⟨⟨[]⟩, some ((edsTs.take 1).map (mkRow colsTs)), none⟩ :=
  ⟨(C2_batch_threshold 2 (by decide) colsTs edsTs (by decide) (by decide)).1,
   (C2_batch_threshold 2 (by decide) colsTs edsTs (by decide) (by decide)).2 1 (by decide)⟩

/-- The diff pass never changes the prev pointer of a screenshot. -/
theorem processOne_prev (f m : Nat → Nat → Nat) (l : List Screenshot) (s : Screenshot) :
    ((processOne f m l s).1).prev = s.prev := by
  cases hp : s.prev <;>
    cases hd : s.png_diff_data <;>
      cases hm2 : s.png_diff_mask_data <;>
        simp [processOne, hp, hd, hm2]

/-- A screenshot whose prev is unset (Python None, falsy) is skipped
untouched and costs no computation. -/
theorem processOne_skip (f m : Nat → Nat → Nat) (l : List Screenshot) (s : Screenshot)
    (h : s.prev = none) : processOne f m l s = (s, 0) := by
  simp [processOne, h]

/-- A screenshot whose prev is set leaves the loop body with both diff
fields present. -/
theorem processOne_fills (f m : Nat → Nat → Nat) (l : List Screenshot) (s : Screenshot)
    (i : Nat) (h : s.prev = some i) :
    ((processOne f m l s).1).png_diff_data.isSome = true
    ∧ ((processOne f m l s).1).png_diff_mask_data.isSome = true := by
  cases hd : s.png_diff_data <;>
    cases hm2 : s.png_diff_mask_data <;>
      simp [processOne, h, hd, hm2]

/-- Running the loop body on the output of a previous run computes
nothing: either the screenshot was skipped (prev unset) or both diff
fields are now cached. -/
theorem processOne_again (f m : Nat → Nat → Nat) (l l2 : List Screenshot)
    (s : Screenshot) : (processOne f m l2 ((processOne f m l s).1)).2 = 0 := by
  cases hp : s.prev with
  | none =>
    rw [processOne_skip f m l s hp]
    rw [processOne_skip f m l2 s hp]
  | some i =>
    obtain ⟨h1, h2⟩ := processOne_fills f m l s i hp
    have hp2 : ((processOne f m l s).1).prev = some i := by
      rw [processOne_prev, hp]
    rcases hd : ((processOne f m l s).1).png_diff_data with _ | d
    · rw [hd] at h1
      simp at h1
    rcases hm2 : ((processOne f m l s).1).png_diff_mask_data with _ | dm
    · rw [hm2] at h2
      simp at h2
    set t := (processOne f m l s).1 with ht
    simp [processOne, hp2, hd, hm2]

/-- C6: the diff-chain pass is idempotent and writes only when needed.
Running save_screenshot_diff on the output of a previous pass performs
zero diff computations and leaves data_updated false, so no bulk write
is issued; and in any single pass the bulk write happens exactly when
at least one diff field was newly computed. -/
theorem C6_diff_pass_idempotent (f m : Nat → Nat → Nat) (l : List Screenshot) :
    (save_screenshot_diff f m (save_screenshot_diff f m l).screenshots).computes = 0
    ∧ (save_screenshot_diff f m (save_screenshot_diff f m l).screenshots).data_updated = false
    ∧ ((save_screenshot_diff f m l).data_updated = true
        ↔ 0 < (save_screenshot_diff f m l).computes) := by
  refine ⟨?_, ?_, ?_⟩
  · unfold save_screenshot_diff
    simp only [List.map_map]
    apply List.sum_eq_zero
    intro x hx
    simp only [List.mem_map, Function.comp] at hx
    obtain ⟨s, hs, hxe⟩ := hx
    rw [← hxe]
    exact processOne_again f m l _ s
  · unfold save_screenshot_diff
    rw [List.any_eq_false]
    intro s hs
    simp only [List.mem_map] at hs
    obtain ⟨s0, hs0, hse⟩ := hs
    rw [← hse]
    simp [processOne_again f m l _ s0]
  · unfold save_screenshot_diff
    simp only [List.any_eq_true, bne_iff_ne, ne_eq]
    constructor
    · rintro ⟨s, hs, hne⟩
      have hmem : (processOne f m l s).2 ∈ l.map (fun s => (processOne f m l s).2) :=
        List.mem_map.mpr ⟨s, hs, rfl⟩
      have hle := List.single_le_sum (fun x _ => Nat.zero_le x) _ hmem
      omega
    · intro hpos
      by_contra hno
      push_neg at hno
      have hz : (l.map (fun s => (processOne f m l s).2)).sum = 0 := by
        apply List.sum_eq_zero
        intro x hx
        simp only [List.mem_map] at hx
        obtain ⟨s, hs, hxe⟩ := hx
        rw [← hxe]
        exact hno s hs
      omega

/-- C5 counterexample: one stored screenshot, fetched through
get_screenshots with diffing enabled. Its prev is linked to itself
(index 0), yet the diff pass does not skip it: both diff fields are
computed and cached (against its own image), because the skip test of
the source is the Python truthiness of prev, which only an unset prev
fails. The claim says the self-referential screenshot is skipped with
no diff computed or cached. -/
theorem C5_first_screenshot_not_skipped :
    get_screenshots true (fun x y => x + y) (fun x y => x * y) [scStored] (some ⟨0⟩) =
      Except.ok [⟨0, 1, 9, some 18, some 81, some 0⟩] :=
  rfl

/-- C5 (amended): the diff pass skips exactly the screenshots whose
prev is unset (None), leaving them untouched; every screenshot whose
prev is set, the self-referential first screenshot of a fetched list
included, leaves the pass with both diff fields cached and its prev
intact. -/
theorem C5_skip_only_unset_prev (f m : Nat → Nat → Nat) (l : List Screenshot)
    (i j : Nat) (s t : Screenshot)
    (hs : l.get? i = some s) (hps : s.prev = none)
    (ht : l.get? j = some t) (hpt : t.prev.isSome = true) :
    (save_screenshot_diff f m l).screenshots.get? i = some s
    ∧ ((save_screenshot_diff f m l).screenshots.get? j).map
        (fun u => (u.png_diff_data.isSome, u.png_diff_mask_data.isSome, u.prev))
      = some (true, true, t.prev) := by
  obtain ⟨k, hk⟩ := Option.isSome_iff_exists.mp hpt
  constructor
  · show (l.map _).get? i = some s
    rw [List.get?_map, hs]
    simp [processOne_skip f m l s hps]
  · have hj : (save_screenshot_diff f m l).screenshots.get? j =
        some (processOne f m l t).1 := by
      show (l.map _).get? j = some (processOne f m l t).1
      rw [List.get?_map, ht]
      rfl
    rw [hj]
    simp only [Option.map]
    rw [(processOne_fills f m l t k hk).1, (processOne_fills f m l t k hk).2,
      processOne_prev f m l t]

/-- Witness for C5_skip_only_unset_prev on a two-element list: the
screenshot with unset prev passes through unchanged, the one with prev
set comes out with both diff fields cached and its prev intact. -/
theorem C5_skip_only_unset_prev_witness :
    (save_screenshot_diff (fun x y => x + y) (fun x y => x * y)
        [scNoPrev, scWithPrev]).screenshots.get? 0 = some scNoPrev
    ∧ ((save_screenshot_diff (fun x y => x + y) (fun x y => x * y)
          [scNoPrev, scWithPrev]).screenshots.get? 1).map
        (fun u => (u.png_diff_data.isSome, u.png_diff_mask_data.isSome, u.prev))
      = some (true, true, scWithPrev.prev) :=
  C5_skip_only_unset_prev (fun x y => x + y) (fun x y => x * y)
    [scNoPrev, scWithPrev] 0 1 scNoPrev scWithPrev rfl rfl rfl rfl

/-- Position j of the zip pass starting at predecessor index i holds the
original screenshot with prev set to i + j. -/
theorem linkTail_get? (rest : List Screenshot) : ∀ (i j : Nat),
    (linkTail i rest).get? j =
      (rest.get? j).map (fun s => { s with prev := some (i + j) }) := by
  induction rest with
  | nil =>
    intro i j
    simp [linkTail]
  | cons r rs ih =>
    intro i j
    cases j with
    | zero => simp [linkTail]
    | succ j =>
      simp only [linkTail, List.get?_cons_succ]
      rw [ih (i + 1) j]
      cases h : rs.get? j with
      | none => simp
      | some s =>
        have : i + 1 + j = i + (j + 1) := by omega
        simp [this]

/-- The head of the linked list points at itself (index 0). -/
theorem linkPrevs_prev_zero (l : List Screenshot) (s : Screenshot)
    (h : (linkPrevs l).get? 0 = some s) : s.prev = some 0 := by
  cases l with
  | nil => simp [linkPrevs] at h
  | cons s0 rest =>
    simp only [linkPrevs, List.get?_cons_zero, Option.some.injEq] at h
    rw [← h]

/-- Every later position of the linked list points at the position
right before it. -/
theorem linkPrevs_prev_succ (l : List Screenshot) (j : Nat) (s : Screenshot)
    (h : (linkPrevs l).get? (j + 1) = some s) : s.prev = some j := by
  cases l with
  | nil => simp [linkPrevs] at h
  | cons s0 rest =>
    simp only [linkPrevs, List.get?_cons_succ] at h
    rw [linkTail_get? rest 0 j] at h
    cases hr : rest.get? j with
    | none =>
      rw [hr] at h
      simp at h
    | some t =>
      rw [hr] at h
      simp at h
      rw [← h]

/-- The diff pass preserves positions and prev pointers: whatever sits
at position i afterwards has the prev of the screenshot that sat there
before. -/
theorem save_preserves_prev (f m : Nat → Nat → Nat) (l : List Screenshot)
    (i : Nat) (s : Screenshot)
    (h : (save_screenshot_diff f m l).screenshots.get? i = some s) :
    ∃ s0, l.get? i = some s0 ∧ s.prev = s0.prev := by
  unfold save_screenshot_diff at h
  rw [List.get?_map] at h
  cases hl : l.get? i with
  | none =>
    rw [hl] at h
    simp at h
  | some s0 =>
    rw [hl] at h
    simp at h
    refine ⟨s0, rfl, ?_⟩
    rw [← h]
    exact processOne_prev f m l s0

/-- C10: in every list returned by get_screenshots for an existing
recording, the screenshot at position 0 has prev pointing at itself
(position 0) and the screenshot at every later position i has prev
pointing at position i - 1, whether or not the diff pass ran. -/
theorem C10_prev_chain (flag : Bool) (f m : Nat → Nat → Nat)
    (dbS : List Screenshot) (r : Recording) (out : List Screenshot)
    (i : Nat) (s : Screenshot)
    (hok : get_screenshots flag f m dbS (some r) = Except.ok out)
    (hget : out.get? i = some s) :
    s.prev = some (if i = 0 then 0 else i - 1) := by
  simp only [get_screenshots, Except.ok.injEq] at hok
  rw [← hok] at hget
  cases i with
  | zero =>
    simp only [if_pos rfl]
    cases flag with
    | false =>
      exact linkPrevs_prev_zero _ s hget
    | true =>
      obtain ⟨s1, hs1, hprev⟩ := save_preserves_prev f m _ 0 s hget
      rw [hprev]
      exact linkPrevs_prev_zero _ s1 hs1
  | succ j =>
    have hif : (if j + 1 = 0 then 0 else j + 1 - 1) = j := by simp
    rw [hif]
    cases flag with
    | false =>
      exact linkPrevs_prev_succ _ j s hget
    | true =>
      obtain ⟨s1, hs1, hprev⟩ := save_preserves_prev f m _ (j + 1) s hget
      rw [hprev]
      exact linkPrevs_prev_succ _ j s1 hs1

/-- Witness for C10_prev_chain on a concrete fetch of two screenshots
with diffing disabled: the first points at itself (position 0), the
second points at the first. -/
theorem C10_prev_chain_witness :
    (⟨0, 1, 5, none, none, some 0⟩ : Screenshot).prev =
      some (if 0 = 0 then 0 else 0 - 1)
    ∧ (⟨0, 2, 6, none, none, some 0⟩ : Screenshot).prev =
      some (if 1 = 0 then 0 else 1 - 1) :=
  ⟨C10_prev_chain false (fun x y => x + y) (fun x y => x * y) dbS10 ⟨0⟩ out10 0
      ⟨0, 1, 5, none, none, some 0⟩ rfl rfl,
   C10_prev_chain false (fun x y => x + y) (fun x y => x * y) dbS10 ⟨0⟩ out10 1
      ⟨0, 2, 6, none, none, some 0⟩ rfl rfl⟩

end OpenAdapt
